import Mathlib

/-!
Verification of the predictive-maintenance pipeline
(`src/AI/model_train.py`, `src/AI/predict.py`).

The Python source is shallowly embedded: rows and records become Lean
structures over `ℚ` (the formulas in the source are exact arithmetic on
the values involved), `pandas` column operations become operations on
lists, scikit-learn `LabelEncoder` becomes an explicit structure over its
sorted class list, and fallible operations return `Except`.
-/

namespace PredMaint

/-- Errors raised along the prediction path (`predict.py`).  `unknownCategory`
is the `ValueError` a scikit-learn encoder raises on a label absent from the
fit set; `invalidCode` the error `inverse_transform` raises on an
out-of-range code; `predictionError` is the umbrella
`Exception("Prediction error: ...")` raised by `predict_failure`, and also
models any other exception caught at the `__main__` boundary. -/
inductive PredErr where
  | unknownCategory (v : String)
  | invalidCode (i : Nat)
  | predictionError (msg : String)
  deriving Repr, DecidableEq

/-- The message string carried to the outward error object (`str(e)`). -/
def PredErr.msg : PredErr → String
  | .unknownCategory v => "y contains previously unseen labels: " ++ v
  | .invalidCode _ => "y contains previously unseen labels"
  | .predictionError m => m

/-- scikit-learn `LabelEncoder` after `fit`: it holds `classes_`, the sorted
distinct values seen at fit time. -/
structure LabelEncoder where
  classes : List String
  deriving Repr, DecidableEq

/-- Lexicographic comparison of character lists by code point, the order
`np.unique` sorts strings in. -/
def lexLe : List Char → List Char → Bool
  | [], _ => true
  | _ :: _, [] => false
  | a :: as, b :: bs =>
    if a.toNat < b.toNat then true
    else if a.toNat = b.toNat then lexLe as bs else false

/-- String comparison by code points. -/
def strLe (a b : String) : Bool := lexLe a.data b.data

/-- `LabelEncoder.fit(values)`: `classes_ = np.unique(values)`, the distinct
values sorted ascending. -/
def LabelEncoder.fit (values : List String) : LabelEncoder :=
  ⟨values.dedup.insertionSort (fun a b => strLe a b = true)⟩

/-- `LabelEncoder.transform` on a single value: the index of the value in
`classes_`; raises on a value absent from the fit set. -/
def LabelEncoder.transform (e : LabelEncoder) (x : String) : Except PredErr Nat :=
  if x ∈ e.classes then .ok (e.classes.indexOf x) else .error (.unknownCategory x)

/-- `LabelEncoder.inverse_transform` on a single code: `classes_[i]`; raises
on an out-of-range code. -/
def LabelEncoder.inverse_transform (e : LabelEncoder) (i : Nat) : Except PredErr String :=
  match e.classes.get? i with
  | some c => .ok c
  | none => .error (.invalidCode i)

theorem mem_fit_classes (values : List String) (x : String) :
    x ∈ (LabelEncoder.fit values).classes ↔ x ∈ values := by
  unfold LabelEncoder.fit
  constructor
  · intro h
    exact List.mem_dedup.mp
      ((List.perm_insertionSort (fun a b => strLe a b = true) values.dedup).mem_iff.mp h)
  · intro h
    exact (List.perm_insertionSort (fun a b => strLe a b = true) values.dedup).mem_iff.mpr
      (List.mem_dedup.mpr h)

/-- Python `s.replace("_", " ")`: with a one-character pattern and
replacement this is exactly a character map over the string. -/
def replaceUnderscores (s : String) : String :=
  ⟨s.data.map (fun c => if c = '_' then ' ' else c)⟩

/-- One raw observation, after renaming to the training schema
(`formatted_data` in `predict.py`).  Numerics are `ℚ`: the Python formulas
are exact on the values they combine. -/
structure RawRecord where
  «Type» : String
  Air_temperature_K : ℚ
  Process_temperature_K : ℚ
  Rotational_speed_rpm : ℚ
  Torque_Nm : ℚ
  Tool_wear_min : ℚ
  deriving Repr, DecidableEq

/-- The `features` list of `predict.py` (`engineer_features`, lines 48-61):
the fixed selection order of the feature columns. -/
def featureNames : List String :=
  ["Type_enc",
   "Air_temperature_K",
   "Process_temperature_K",
   "Rotational_speed_rpm",
   "Torque_Nm",
   "Tool_wear_min",
   "Temp_Diff",
   "Stress_Index",
   "Torque_Speed_Ratio",
   "Torque_roll_mean5",
   "Torque_roll_std5",
   "Wear_diff"]

/-- The `features` list of `model_train.py` (lines 118-131), before the
`[f for f in features if f in df.columns]` filter. -/
def trainFeatureNames : List String :=
  ["Type_enc",
   "Air_temperature_K",
   "Process_temperature_K",
   "Rotational_speed_rpm",
   "Torque_Nm",
   "Tool_wear_min",
   "Temp_Diff",
   "Stress_Index",
   "Torque_Speed_Ratio",
   "Torque_roll_mean5",
   "Torque_roll_std5",
   "Wear_diff"]

/-- The columns of the training dataframe at line 132 of `model_train.py`:
the synthesized columns (lines 25-34), the label and encoded columns
(lines 53, 95, 98) and the engineered columns (lines 108-114). -/
def trainColumns : List String :=
  ["UDI", "Product_ID", "Type",
   "Air_temperature_K", "Process_temperature_K", "Rotational_speed_rpm",
   "Torque_Nm", "Tool_wear_min",
   "Failure_Type", "Type_enc", "Failure_Type_Enc",
   "Temp_Diff", "Stress_Index", "Torque_Speed_Ratio",
   "Torque_roll_mean5", "Torque_roll_std5", "Wear_diff"]

/-- `features = [f for f in features if f in df.columns]`
(`model_train.py` line 132): the feature list the Trainer actually uses. -/
def trainFeaturesUsed : List String :=
  trainFeatureNames.filter (fun f => f ∈ trainColumns)

/-- `df["Temp_Diff"] = df["Process_temperature_K"] - df["Air_temperature_K"]`
(`model_train.py` line 108), per row. -/
def train_Temp_Diff (r : RawRecord) : ℚ :=
  r.Process_temperature_K - r.Air_temperature_K

/-- `df["Stress_Index"] = df["Torque_Nm"] * df["Rotational_speed_rpm"]`
(`model_train.py` line 109), per row. -/
def train_Stress_Index (r : RawRecord) : ℚ :=
  r.Torque_Nm * r.Rotational_speed_rpm

/-- `df["Torque_Speed_Ratio"] = df["Torque_Nm"] / (df["Rotational_speed_rpm"] + 1)`
(`model_train.py` line 110), per row. -/
def train_Torque_Speed_Ratio (r : RawRecord) : ℚ :=
  r.Torque_Nm / (r.Rotational_speed_rpm + 1)

/-- The value of each engineered column for the single-row dataframe built by
`engineer_features` in `predict.py`, given the already-computed `Type_enc`
code `t` (lines 35-45 of `predict.py`). -/
def featureValue (t : Nat) (r : RawRecord) : String → ℚ
  | "Type_enc" => (t : ℚ)
  | "Air_temperature_K" => r.Air_temperature_K
  | "Process_temperature_K" => r.Process_temperature_K
  | "Rotational_speed_rpm" => r.Rotational_speed_rpm
  | "Torque_Nm" => r.Torque_Nm
  | "Tool_wear_min" => r.Tool_wear_min
  | "Temp_Diff" => r.Process_temperature_K - r.Air_temperature_K
  | "Stress_Index" => r.Torque_Nm * r.Rotational_speed_rpm
  | "Torque_Speed_Ratio" => r.Torque_Nm / (r.Rotational_speed_rpm + 1)
  | "Torque_roll_mean5" => 0
  | "Torque_roll_std5" => 0
  | "Wear_diff" => 0
  | _ => 0

/-- `engineer_features(data)` of `predict.py`: encode `Type` through the
persisted Type Encoder (line 35, may fail on an unseen label), compute the
derived columns, and return the row restricted to `features`, in that order
(`df[features]`, line 63), as an ordered association list of
(column name, value). -/
def engineer_features (type_enc : LabelEncoder) (r : RawRecord) :
    Except PredErr (List (String × ℚ)) :=
  match type_enc.transform r.«Type» with
  | .error e => .error e
  | .ok t => .ok (featureNames.map (fun f => (f, featureValue t r f)))

/-- A JSON scalar as far as the prediction input is concerned. -/
inductive JVal where
  | num (q : ℚ)
  | str (s : String)
  deriving Repr, DecidableEq

/-- A parsed JSON object: the Python `dict`, as an association list whose
observable content is key lookup (insertion order never matters to the
code under study). -/
def JsonObj : Type := List (String × JVal)

/-- Building `formatted_data` from `input_data` in `__main__` of
`predict.py` (lines 98-105): six keyed accesses; a missing key raises
`KeyError`, a non-numeric value where a number is needed (or vice versa)
raises downstream — both are caught at the same outer boundary, so both
are modelled as errors here. -/
def extractRecord (obj : JsonObj) : Except PredErr RawRecord :=
  match obj.lookup "airTemperature", obj.lookup "processTemperature",
        obj.lookup "rotationalSpeed", obj.lookup "torque",
        obj.lookup "toolWear", obj.lookup "type" with
  | some (.num a), some (.num p), some (.num s), some (.num t),
    some (.num w), some (.str ty) =>
      .ok { «Type» := ty, Air_temperature_K := a, Process_temperature_K := p,
            Rotational_speed_rpm := s, Torque_Nm := t, Tool_wear_min := w }
  | _, _, _, _, _, _ => .error (.predictionError "KeyError")

/-- Reading a record out of a `dict` keyed by the training schema (the
`data` argument of `engineer_features`): each field is obtained by key
lookup, as `pd.DataFrame([data])` column access does. -/
def recordOfDict (d : JsonObj) : Except PredErr RawRecord :=
  match d.lookup "Type", d.lookup "Air_temperature_K",
        d.lookup "Process_temperature_K", d.lookup "Rotational_speed_rpm",
        d.lookup "Torque_Nm", d.lookup "Tool_wear_min" with
  | some (.str ty), some (.num a), some (.num p), some (.num s),
    some (.num t), some (.num w) =>
      .ok { «Type» := ty, Air_temperature_K := a, Process_temperature_K := p,
            Rotational_speed_rpm := s, Torque_Nm := t, Tool_wear_min := w }
  | _, _, _, _, _, _ => .error (.predictionError "KeyError")

/-- `engineer_features` on a `dict` input: the composition actually run
when a caller hands `engineer_features` a Python dict. -/
def engineerFromDict (type_enc : LabelEncoder) (d : JsonObj) :
    Except PredErr (List (String × ℚ)) :=
  (recordOfDict d).bind (engineer_features type_enc)

/-- Modelled from the spec: the trained gradient-boosted classifier is a
persisted artifact, not code under `src/`; the spec fixes its numeric
semantics as "multiclass with softmax-probability output (a vector of
per-class probabilities summing to 1 per record); predicted class = arg-max
of that vector".  A softmax vector is a normalization of strictly positive
weights (the exponentials of the per-class margins), so the model is
embedded as such a weight function over the feature row. -/
structure XGBModel where
  num_class : Nat
  num_class_pos : 0 < num_class
  weight : List ℚ → Fin num_class → ℚ
  weight_pos : ∀ x i, 0 < weight x i

/-- `model.predict_proba(X)` for the single row `x`: the softmax vector,
one probability per class. -/
def XGBModel.predict_proba (m : XGBModel) (x : List ℚ) : List ℚ :=
  let w := (List.finRange m.num_class).map (m.weight x)
  w.map (fun v => v / w.sum)

/-- `np.max` over a row of probabilities (nonempty in every use). -/
def listMax : List ℚ → ℚ
  | [] => 0
  | x :: xs => xs.foldl max x

/-- `np.argmax`: the first index attaining the maximum. -/
def argmaxIdx (l : List ℚ) : Nat := l.indexOf (listMax l)

/-- `model.predict(X)[0]`: the class at the arg-max of the probability
vector. -/
def XGBModel.predict (m : XGBModel) (x : List ℚ) : Nat :=
  argmaxIdx (m.predict_proba x)

/-- The artifact set loaded at module import in `predict.py` (lines 10-27):
the model and the two persisted encoders. -/
structure Artifacts where
  model : XGBModel
  type_enc : LabelEncoder
  target_enc : LabelEncoder

/-- The success object of `predict_failure` (`predict.py` lines 80-84):
its three keys are the three fields of the structure. -/
structure PredResult where
  failureType : String
  confidence : ℚ
  timestamp : String
  deriving Repr, DecidableEq

/-- `predict_failure(input_data)` of `predict.py` (lines 65-86): engineer
the features, run the model, take the max probability as confidence,
decode the arg-max class through the Label Encoder and replace underscores
with spaces; any internal failure is re-raised wrapped as
`Exception("Prediction error: ...")`.  `now` stands for
`datetime.now().isoformat()`. -/
def predict_failure (arts : Artifacts) (now : String) (r : RawRecord) :
    Except PredErr PredResult :=
  match engineer_features arts.type_enc r with
  | .error e => .error (.predictionError ("Prediction error: " ++ e.msg))
  | .ok X =>
    let x := X.map Prod.snd
    let probabilities := arts.model.predict_proba x
    let prediction := arts.model.predict x
    let confidence := listMax probabilities
    match arts.target_enc.inverse_transform prediction with
    | .error e => .error (.predictionError ("Prediction error: " ++ e.msg))
    | .ok failure_type =>
      .ok { failureType := replaceUnderscores failure_type,
            confidence := confidence,
            timestamp := now }

/-- One line printed to standard output by the `__main__` block: either the
success object `{failureType, confidence, timestamp}` or the error object
`{error, timestamp}`. -/
inductive OutLine where
  | success (failureType : String) (confidence : ℚ) (timestamp : String)
  | failure (error : String) (timestamp : String)
  deriving Repr, DecidableEq

/-- Observable outcome of one Predictor process run: the JSON lines written
to standard output, the exit code, and whether an uncaught exception
escaped to standard error as a raw traceback. -/
structure ProcResult where
  stdoutLines : List OutLine
  exitCode : Nat
  rawTraceback : Bool
  deriving Repr, DecidableEq

/-- The single command-line argument as `__main__` sees it: absent
(`len(sys.argv) < 2`), present but not valid JSON (`json.loads` raises),
or a parsed JSON object. -/
inductive ArgvInput where
  | missing
  | unparseable (raw : String)
  | parsed (obj : JsonObj)

/-- The `__main__` try/except block of `predict.py` (lines 88-119), run
after artifact loading already succeeded: every failure inside the `try`
is caught and printed as the error object, with exit code 1; success
prints the success object and falls off the end with exit code 0. -/
def runMain (arts : Artifacts) (now : String) (arg : ArgvInput) : ProcResult :=
  match arg with
  | .missing =>
      ⟨[.failure "No input data provided" now], 1, false⟩
  | .unparseable _ =>
      ⟨[.failure "Expecting value: invalid JSON" now], 1, false⟩
  | .parsed obj =>
    match extractRecord obj with
    | .error e => ⟨[.failure e.msg now], 1, false⟩
    | .ok rec =>
      match predict_failure arts now rec with
      | .error e => ⟨[.failure e.msg now], 1, false⟩
      | .ok res => ⟨[.success res.failureType res.confidence res.timestamp], 0, false⟩

/-- One whole Predictor process invocation.  Module-level artifact loading
(`predict.py` lines 10-27) runs before and outside the `__main__`
try/except: if any artifact is missing or unreadable (`loaded = none`),
the exception is uncaught — nothing is written to standard output, the
interpreter prints a raw traceback and exits 1.  Otherwise `__main__`
runs. -/
def runProcess (loaded : Option Artifacts) (now : String) (arg : ArgvInput) :
    ProcResult :=
  match loaded with
  | none => ⟨[], 1, true⟩
  | some arts => runMain arts now arg

/-- `model_info["classes"]` as persisted by `model_train.py` (lines
230-234): the classes of the Label Encoder with every underscore replaced by a
space. -/
def model_info_classes (target_enc : LabelEncoder) : List String :=
  target_enc.classes.map (fun cls => replaceUnderscores cls)

/-- `wear_failure = df["Tool_wear_min"] > 200` (`model_train.py` line 56),
per row. -/
def wear_failure (r : RawRecord) : Bool := r.Tool_wear_min > 200

/-- `power_failure = (df["Torque_Nm"] > 80) & (df["Rotational_speed_rpm"] > 2500)`
(`model_train.py` line 57), per row. -/
def power_failure (r : RawRecord) : Bool :=
  (r.Torque_Nm > 80) && (r.Rotational_speed_rpm > 2500)

/-- `overstrain_failure = (df["Torque_Nm"] > 70) & (df["Tool_wear_min"] > 150)`
(`model_train.py` line 58), per row. -/
def overstrain_failure (r : RawRecord) : Bool :=
  (r.Torque_Nm > 70) && (r.Tool_wear_min > 150)

/-- `heat_failure = (df["Process_temperature_K"] - df["Air_temperature_K"]) > 15`
(`model_train.py` line 59), per row. -/
def heat_failure (r : RawRecord) : Bool :=
  (r.Process_temperature_K - r.Air_temperature_K) > 15

/-- The four `df.loc[...] = ...` assignments of `model_train.py` (lines
62-65) applied in order to a row initialized to `"No_Failure"` (line 53):
each mask overwrites the label exactly where it holds. -/
def labelAfterWear (r : RawRecord) : String :=
  if wear_failure r then "Tool_Wear_Failure" else "No_Failure"

/-- After line 63: `df.loc[power_failure & ~wear_failure] = "Power_Failure"`. -/
def labelAfterPower (r : RawRecord) : String :=
  if power_failure r && !wear_failure r then "Power_Failure" else labelAfterWear r

/-- After line 64:
`df.loc[overstrain_failure & ~wear_failure & ~power_failure] = "Overstrain_Failure"`. -/
def labelAfterOverstrain (r : RawRecord) : String :=
  if overstrain_failure r && !wear_failure r && !power_failure r
  then "Overstrain_Failure" else labelAfterPower r

/-- After line 65, the final rule-based label of a row:
`df.loc[heat_failure & ~wear_failure & ~power_failure & ~overstrain_failure] = "Heat_Dissipation_Failure"`. -/
def assignFailureType (r : RawRecord) : String :=
  if heat_failure r && !wear_failure r && !power_failure r && !overstrain_failure r
  then "Heat_Dissipation_Failure" else labelAfterOverstrain r

/-- The failure classes the Data Synthesizer can produce (rule labels at
lines 53-65 plus the random relabel at line 74 of `model_train.py`). -/
def synthFailureClasses : List String :=
  ["No_Failure", "Tool_Wear_Failure", "Power_Failure", "Overstrain_Failure",
   "Heat_Dissipation_Failure", "Random_Failures"]

/-- A row of the labeled training dataframe: the observation plus its
`Failure_Type` column. -/
structure LabeledRecord where
  row : RawRecord
  Failure_Type : String
  deriving Repr, DecidableEq

instance : Inhabited LabeledRecord :=
  ⟨{ row := { «Type» := "", Air_temperature_K := 0, Process_temperature_K := 0,
              Rotational_speed_rpm := 0, Torque_Nm := 0, Tool_wear_min := 0 },
     Failure_Type := "" }⟩

/-- `min_samples_per_class = 50` (`model_train.py` line 78). -/
def min_samples_per_class : Nat := 50

/-- `(df["Failure_Type"] == failure_type).sum()`: how many rows of the
dataframe carry the class. -/
def countClass (df : List LabeledRecord) (ft : String) : Nat :=
  (df.filter (fun r => r.Failure_Type == ft)).length

/-- `df[df["Failure_Type"] == failure_type]`: the rows of that class. -/
def classRows (df : List LabeledRecord) (ft : String) : List LabeledRecord :=
  df.filter (fun r => r.Failure_Type == ft)

/-- One iteration of the balancing loop (`model_train.py` lines 79-89) for
class `ft`: if the class is below `min_samples_per_class`, append
`samples_needed` rows drawn with replacement
(`np.random.choice(indices, size=samples_needed, replace=True)`) from the
own rows of the class; the draw is modelled by the arbitrary chooser `pick`,
reduced mod the class size so every draw lands inside the class. -/
def balanceClass (pick : Nat → Nat) (df : List LabeledRecord) (ft : String) :
    List LabeledRecord :=
  let rows := classRows df ft
  let count := rows.length
  if count < min_samples_per_class then
    df ++ (List.range (min_samples_per_class - count)).map
      (fun i => rows.getD (pick i % count) default)
  else df

/-- `df["Failure_Type"].unique()`: the distinct classes in first-seen
order, computed once before the loop runs. -/
def uniqueClasses (df : List LabeledRecord) : List String :=
  (df.map (fun r => r.Failure_Type)).eraseDups

/-- The whole balancing loop of `model_train.py` (lines 78-89):
`for failure_type in df["Failure_Type"].unique(): ...`, each iteration
rebinding `df` to the possibly-extended dataframe. -/
def balanceAll (pick : String → Nat → Nat) (df : List LabeledRecord) :
    List LabeledRecord :=
  (uniqueClasses df).foldl (fun acc ft => balanceClass (pick ft) acc ft) df

instance {ε α : Type} [DecidableEq ε] [DecidableEq α] :
    DecidableEq (Except ε α) := fun a b =>
  match a, b with
  | .ok x, .ok y =>
    if h : x = y then .isTrue (by rw [h]) else .isFalse (by intro hc; cases hc; exact h rfl)
  | .error x, .error y =>
    if h : x = y then .isTrue (by rw [h]) else .isFalse (by intro hc; cases hc; exact h rfl)
  | .ok _, .error _ => .isFalse (by intro hc; cases hc)
  | .error _, .ok _ => .isFalse (by intro hc; cases hc)

/-! Concrete instances used to evaluate the definitions on sample inputs. -/

/-- A Type Encoder fit on the machine types of the synthesized data. -/
def exampleTypeEnc : LabelEncoder := LabelEncoder.fit ["L", "M", "H", "L"]

/-- A Label Encoder fit on two of the synthesized failure classes. -/
def exampleTargetEnc : LabelEncoder :=
  LabelEncoder.fit ["No_Failure", "Power_Failure", "No_Failure"]

/-- A two-class model whose softmax weights are `1` and `2` for every
input row. -/
def exampleModel : XGBModel where
  num_class := 2
  num_class_pos := by decide
  weight := fun _ i => (i : ℚ) + 1
  weight_pos := fun _ i => by positivity

/-- An artifact set around the example model and encoders. -/
def exampleArts : Artifacts :=
  { model := exampleModel, type_enc := exampleTypeEnc, target_enc := exampleTargetEnc }

/-- The end-to-end sample record of the spec (integral temperatures keep
the arithmetic small). -/
def exampleRecord : RawRecord :=
  { «Type» := "L", Air_temperature_K := 298, Process_temperature_K := 308,
    Rotational_speed_rpm := 1500, Torque_Nm := 40, Tool_wear_min := 0 }

/-- The engineered feature row of `exampleRecord` under `exampleTypeEnc`. -/
def exampleX : List (String × ℚ) :=
  [("Type_enc", 1), ("Air_temperature_K", 298), ("Process_temperature_K", 308),
   ("Rotational_speed_rpm", 1500), ("Torque_Nm", 40), ("Tool_wear_min", 0),
   ("Temp_Diff", 10), ("Stress_Index", 60000), ("Torque_Speed_Ratio", 40 / 1501),
   ("Torque_roll_mean5", 0), ("Torque_roll_std5", 0), ("Wear_diff", 0)]

/-- The prediction `exampleArts` yields on `exampleRecord`. -/
def exampleRes : PredResult :=
  { failureType := "Power Failure", confidence := 2 / 3,
    timestamp := "2024-01-01T00:00:00" }

/-- `exampleRecord` as a `dict` in one field order. -/
def exampleDict1 : JsonObj :=
  [("Type", .str "L"), ("Air_temperature_K", .num 298),
   ("Process_temperature_K", .num 308), ("Rotational_speed_rpm", .num 1500),
   ("Torque_Nm", .num 40), ("Tool_wear_min", .num 0)]

/-- `exampleRecord` as a `dict` with its fields in the reverse order. -/
def exampleDict2 : JsonObj :=
  [("Tool_wear_min", .num 0), ("Torque_Nm", .num 40),
   ("Rotational_speed_rpm", .num 1500), ("Process_temperature_K", .num 308),
   ("Air_temperature_K", .num 298), ("Type", .str "L")]

/-- A record whose machine type was never seen at encoder fit time. -/
def unseenRecord : RawRecord :=
  { «Type» := "Z", Air_temperature_K := 298, Process_temperature_K := 308,
    Rotational_speed_rpm := 1500, Torque_Nm := 40, Tool_wear_min := 0 }

/-- A labeled dataframe with two classes, both below
`min_samples_per_class`. -/
def exampleDf : List LabeledRecord :=
  [{ row := exampleRecord, Failure_Type := "No_Failure" },
   { row := exampleRecord, Failure_Type := "No_Failure" },
   { row := unseenRecord, Failure_Type := "Power_Failure" }]

/-- A deterministic chooser standing in for `np.random.choice`. -/
def pickZero : String → Nat → Nat := fun _ _ => 0

/-- A record whose rotational speed is exactly 0. -/
def zeroSpeedRecord : RawRecord :=
  { «Type» := "L", Air_temperature_K := 298, Process_temperature_K := 308,
    Rotational_speed_rpm := 0, Torque_Nm := 40, Tool_wear_min := 0 }

/-- A record on which all four failure-rule predicates hold at once. -/
def allRulesRecord : RawRecord :=
  { «Type» := "M", Air_temperature_K := 300, Process_temperature_K := 320,
    Rotational_speed_rpm := 3000, Torque_Nm := 100, Tool_wear_min := 250 }

/-!  ## Theorems  -/

theorem engineer_features_eq_ok {enc : LabelEncoder} {r : RawRecord}
    {X : List (String × ℚ)} (h : engineer_features enc r = .ok X) :
    ∃ t, enc.transform r.«Type» = .ok t ∧
      X = featureNames.map (fun f => (f, featureValue t r f)) := by
  unfold engineer_features at h
  cases htr : enc.transform r.«Type» with
  | error e => rw [htr] at h; cases h
  | ok t => rw [htr] at h; exact ⟨t, rfl, (Except.ok.injEq _ _).mp h.symm⟩

theorem exampleTypeEnc_transform : exampleTypeEnc.transform "L" = .ok 1 := by
  decide

theorem engineer_features_example :
    engineer_features exampleTypeEnc exampleRecord = .ok exampleX := by
  unfold engineer_features
  have hty : exampleRecord.«Type» = "L" := rfl
  rw [hty, exampleTypeEnc_transform]
  refine congrArg Except.ok ?_
  simp only [featureNames, List.map_cons, List.map_nil, featureValue, exampleRecord,
    exampleX, Prod.mk.injEq]
  norm_num

/-- C1: The Feature Engineer yields exactly 12 named features in one
fixed order — `Type_enc`, `Air_temperature_K`, `Process_temperature_K`,
`Rotational_speed_rpm`, `Torque_Nm`, `Tool_wear_min`, `Temp_Diff`,
`Stress_Index`, `Torque_Speed_Ratio`, `Torque_roll_mean5`,
`Torque_roll_std5`, `Wear_diff` — the training-time feature list (after its
column filter) is that same list in the same order, and the engineered
output depends only on the key-value content of the input, not on the
ordering of its fields. -/
theorem C1_feature_vector_fixed_order :
    trainFeaturesUsed = featureNames ∧
    featureNames.length = 12 ∧
    (∀ (enc : LabelEncoder) (r : RawRecord) (X : List (String × ℚ)),
      engineer_features enc r = .ok X → X.map Prod.fst = featureNames) ∧
    (∀ (enc : LabelEncoder) (d1 d2 : JsonObj),
      (∀ k, List.lookup k d1 = List.lookup k d2) →
      engineerFromDict enc d1 = engineerFromDict enc d2) := by
  refine ⟨by decide, by decide, ?_, ?_⟩
  · intro enc r X h
    obtain ⟨t, -, rfl⟩ := engineer_features_eq_ok h
    simp [List.map_map, Function.comp_def]
  · intro enc d1 d2 h
    unfold engineerFromDict recordOfDict
    simp only [h]

/-- Witness for C1: the concrete engineered row of `exampleRecord` carries
the 12 names in order, and two field orderings of the same dict engineer
identically. -/
theorem C1_witness :
    exampleX.map Prod.fst = featureNames ∧
    engineerFromDict exampleTypeEnc exampleDict1 =
      engineerFromDict exampleTypeEnc exampleDict2 := by
  constructor
  · exact C1_feature_vector_fixed_order.2.2.1 exampleTypeEnc exampleRecord exampleX
      engineer_features_example
  · refine C1_feature_vector_fixed_order.2.2.2 exampleTypeEnc exampleDict1 exampleDict2 ?_
    intro k
    by_cases h1 : k = "Type"
    · subst h1; decide
    by_cases h2 : k = "Air_temperature_K"
    · subst h2; decide
    by_cases h3 : k = "Process_temperature_K"
    · subst h3; decide
    by_cases h4 : k = "Rotational_speed_rpm"
    · subst h4; decide
    by_cases h5 : k = "Torque_Nm"
    · subst h5; decide
    by_cases h6 : k = "Tool_wear_min"
    · subst h6; decide
    have b1 : (k == "Type") = false := beq_eq_false_iff_ne.mpr h1
    have b2 : (k == "Air_temperature_K") = false := beq_eq_false_iff_ne.mpr h2
    have b3 : (k == "Process_temperature_K") = false := beq_eq_false_iff_ne.mpr h3
    have b4 : (k == "Rotational_speed_rpm") = false := beq_eq_false_iff_ne.mpr h4
    have b5 : (k == "Torque_Nm") = false := beq_eq_false_iff_ne.mpr h5
    have b6 : (k == "Tool_wear_min") = false := beq_eq_false_iff_ne.mpr h6
    simp [exampleDict1, exampleDict2, List.lookup, b1, b2, b3, b4, b5, b6]

/-- C3: Inference-time feature engineering agrees with training-time
feature engineering: `Temp_Diff`, `Stress_Index` and `Torque_Speed_Ratio`
in the engineered row equal the training formulas evaluated on the record,
and the three history-based features are exactly 0. -/
theorem C3_inference_matches_training (enc : LabelEncoder) (r : RawRecord)
    (X : List (String × ℚ)) (h : engineer_features enc r = .ok X) :
    X.lookup "Temp_Diff" = some (train_Temp_Diff r) ∧
    X.lookup "Stress_Index" = some (train_Stress_Index r) ∧
    X.lookup "Torque_Speed_Ratio" = some (train_Torque_Speed_Ratio r) ∧
    X.lookup "Torque_roll_mean5" = some 0 ∧
    X.lookup "Torque_roll_std5" = some 0 ∧
    X.lookup "Wear_diff" = some 0 := by
  obtain ⟨t, -, rfl⟩ := engineer_features_eq_ok h
  refine ⟨?_, ?_, ?_, ?_, ?_, ?_⟩ <;>
    simp [featureNames, featureValue, List.lookup,
      train_Temp_Diff, train_Stress_Index, train_Torque_Speed_Ratio]

/-- Witness for C3: evaluated on `exampleRecord` under `exampleTypeEnc`. -/
theorem C3_witness :
    exampleX.lookup "Temp_Diff" = some (train_Temp_Diff exampleRecord) ∧
    exampleX.lookup "Stress_Index" = some (train_Stress_Index exampleRecord) ∧
    exampleX.lookup "Torque_Speed_Ratio" =
      some (train_Torque_Speed_Ratio exampleRecord) ∧
    exampleX.lookup "Torque_roll_mean5" = some 0 ∧
    exampleX.lookup "Torque_roll_std5" = some 0 ∧
    exampleX.lookup "Wear_diff" = some 0 :=
  C3_inference_matches_training exampleTypeEnc exampleRecord exampleX
    engineer_features_example

/-- C5: Encoder round-trip: for every category string present in the
fit values, `inverse_transform (transform x) = x`; the Type Encoder and the
Label Encoder are both instances of this encoder. -/
theorem C5_encoder_round_trip (values : List String) (x : String)
    (h : x ∈ values) :
    ((LabelEncoder.fit values).transform x).bind
      (LabelEncoder.fit values).inverse_transform = .ok x := by
  have hx : x ∈ (LabelEncoder.fit values).classes := (mem_fit_classes values x).mpr h
  unfold LabelEncoder.transform
  rw [if_pos hx]
  show (LabelEncoder.fit values).inverse_transform _ = .ok x
  unfold LabelEncoder.inverse_transform
  have hlt : (LabelEncoder.fit values).classes.indexOf x <
      (LabelEncoder.fit values).classes.length := List.indexOf_lt_length.mpr hx
  rw [List.get?_eq_get hlt]
  simp [List.indexOf_get]

/-- Witness for C5: round-trips through the two fit encoders of the
examples. -/
theorem C5_witness :
    ((LabelEncoder.fit ["L", "M", "H", "L"]).transform "L").bind
      (LabelEncoder.fit ["L", "M", "H", "L"]).inverse_transform = .ok "L" ∧
    ((LabelEncoder.fit ["No_Failure", "Power_Failure", "No_Failure"]).transform
        "Power_Failure").bind
      (LabelEncoder.fit ["No_Failure", "Power_Failure", "No_Failure"]).inverse_transform =
      .ok "Power_Failure" :=
  ⟨C5_encoder_round_trip ["L", "M", "H", "L"] "L" (by decide),
   C5_encoder_round_trip ["No_Failure", "Power_Failure", "No_Failure"] "Power_Failure"
     (by decide)⟩

/-- C4: `transform` on a value absent from the fit set always fails
with `UnknownCategory` (never a default code), and under the Predictor
this surfaces as a structured error object with exit code 1, not a
successful prediction. -/
theorem C4_unknown_category_fails :
    (∀ (values : List String) (x : String), x ∉ values →
      (LabelEncoder.fit values).transform x = .error (.unknownCategory x)) ∧
    (∀ (arts : Artifacts) (now : String) (r : RawRecord),
      r.«Type» ∉ arts.type_enc.classes →
      predict_failure arts now r =
        .error (.predictionError
          ("Prediction error: " ++ (PredErr.unknownCategory r.«Type»).msg))) ∧
    (∀ (arts : Artifacts) (now : String) (obj : JsonObj) (r : RawRecord),
      extractRecord obj = .ok r → r.«Type» ∉ arts.type_enc.classes →
      ∃ m, runProcess (some arts) now (.parsed obj) =
        { stdoutLines := [.failure m now], exitCode := 1, rawTraceback := false }) := by
  have htr : ∀ (e : LabelEncoder) (x : String), x ∉ e.classes →
      e.transform x = .error (.unknownCategory x) := by
    intro e x hx
    unfold LabelEncoder.transform
    rw [if_neg hx]
  have hpf : ∀ (arts : Artifacts) (now : String) (r : RawRecord),
      r.«Type» ∉ arts.type_enc.classes →
      predict_failure arts now r =
        .error (.predictionError
          ("Prediction error: " ++ (PredErr.unknownCategory r.«Type»).msg)) := by
    intro arts now r h
    unfold predict_failure engineer_features
    rw [htr arts.type_enc r.«Type» h]
  refine ⟨?_, hpf, ?_⟩
  · intro values x h
    exact htr _ x (fun hc => h ((mem_fit_classes values x).mp hc))
  · intro arts now obj r hobj h
    simp only [runProcess, runMain, hobj, hpf arts now r h]
    exact ⟨_, rfl⟩

/-- Witness for C4: the type `"Z"` was never fit, so the example artifacts
reject `unseenRecord` with a structured error. -/
theorem C4_witness :
    (LabelEncoder.fit ["L", "M", "H", "L"]).transform "Z" =
      .error (.unknownCategory "Z") ∧
    predict_failure exampleArts "2024-01-01T00:00:00" unseenRecord =
      .error (.predictionError
        ("Prediction error: " ++ (PredErr.unknownCategory "Z").msg)) :=
  ⟨C4_unknown_category_fails.1 ["L", "M", "H", "L"] "Z" (by decide),
   C4_unknown_category_fails.2.1 exampleArts "2024-01-01T00:00:00" unseenRecord
     (by decide)⟩

/-- C10: The `Torque_Speed_Ratio` denominator is
`Rotational_speed_rpm + 1`, nonzero for every speed other than `-1`; in
particular a record with rotational speed exactly 0 divides by 1 and the
ratio equals the torque, at training and at inference. -/
theorem C10_ratio_denominator_nonzero (r : RawRecord)
    (h : r.Rotational_speed_rpm ≠ -1) :
    r.Rotational_speed_rpm + 1 ≠ 0 ∧
    train_Torque_Speed_Ratio r = r.Torque_Nm / (r.Rotational_speed_rpm + 1) ∧
    (∀ t, featureValue t r "Torque_Speed_Ratio" =
      r.Torque_Nm / (r.Rotational_speed_rpm + 1)) ∧
    (r.Rotational_speed_rpm = 0 → train_Torque_Speed_Ratio r = r.Torque_Nm) := by
  refine ⟨?_, rfl, ?_, ?_⟩
  · intro h0
    apply h
    linarith
  · intro t
    simp [featureValue]
  · intro h0
    simp [train_Torque_Speed_Ratio, h0]

/-- Witness for C10: a zero-speed record is handled, with ratio equal to
its torque. -/
theorem C10_witness :
    zeroSpeedRecord.Rotational_speed_rpm + 1 ≠ 0 ∧
    train_Torque_Speed_Ratio zeroSpeedRecord = zeroSpeedRecord.Torque_Nm :=
  ⟨(C10_ratio_denominator_nonzero zeroSpeedRecord (by decide)).1,
   (C10_ratio_denominator_nonzero zeroSpeedRecord (by decide)).2.2.2 rfl⟩

/-- C7: The rule-based label assignment resolves every record to
exactly one failure class, with wear failure taking priority over power
failure, power over overstrain, overstrain over heat dissipation, and
`No_Failure` for every remaining record. -/
theorem C7_label_rule_precedence (r : RawRecord) :
    (wear_failure r = true → assignFailureType r = "Tool_Wear_Failure") ∧
    (wear_failure r = false → power_failure r = true →
      assignFailureType r = "Power_Failure") ∧
    (wear_failure r = false → power_failure r = false →
      overstrain_failure r = true → assignFailureType r = "Overstrain_Failure") ∧
    (wear_failure r = false → power_failure r = false →
      overstrain_failure r = false → heat_failure r = true →
      assignFailureType r = "Heat_Dissipation_Failure") ∧
    (wear_failure r = false → power_failure r = false →
      overstrain_failure r = false → heat_failure r = false →
      assignFailureType r = "No_Failure") ∧
    assignFailureType r ∈ ["No_Failure", "Tool_Wear_Failure", "Power_Failure",
      "Overstrain_Failure", "Heat_Dissipation_Failure"] := by
  unfold assignFailureType labelAfterOverstrain labelAfterPower labelAfterWear
  cases hw : wear_failure r <;> cases hp : power_failure r <;>
    cases ho : overstrain_failure r <;> cases hh : heat_failure r <;> simp

/-- Witness for C7: on a record satisfying all four rule predicates at
once, the label is `Tool_Wear_Failure`. -/
theorem C7_witness : assignFailureType allRulesRecord = "Tool_Wear_Failure" :=
  (C7_label_rule_precedence allRulesRecord).1 (by decide)

theorem list_sum_map_div (l : List ℚ) (r : ℚ) :
    (l.map (fun v => v / r)).sum = l.sum / r := by
  induction l with
  | nil => simp
  | cons a as ih => simp [ih, add_div]

theorem model_weights_sum_pos (m : XGBModel) (x : List ℚ) :
    0 < ((List.finRange m.num_class).map (m.weight x)).sum := by
  apply List.sum_pos
  · intro v hv
    obtain ⟨i, -, rfl⟩ := List.mem_map.mp hv
    exact m.weight_pos x i
  · intro hnil
    have hlen := congrArg List.length hnil
    simp only [List.length_map, List.length_finRange, List.length_nil] at hlen
    exact absurd hlen m.num_class_pos.ne'

theorem predict_proba_sum_one (m : XGBModel) (x : List ℚ) :
    (m.predict_proba x).sum = 1 := by
  unfold XGBModel.predict_proba
  rw [list_sum_map_div]
  exact div_self (model_weights_sum_pos m x).ne'

theorem predict_proba_bounds (m : XGBModel) (x : List ℚ) :
    ∀ p ∈ m.predict_proba x, 0 ≤ p ∧ p ≤ 1 := by
  intro p hp
  unfold XGBModel.predict_proba at hp
  obtain ⟨v, hv, rfl⟩ := List.mem_map.mp hp
  have hvpos : 0 < v := by
    obtain ⟨i, -, rfl⟩ := List.mem_map.mp hv
    exact m.weight_pos x i
  have hS := model_weights_sum_pos m x
  refine ⟨le_of_lt (div_pos hvpos hS), (div_le_one hS).mpr ?_⟩
  exact List.single_le_sum
    (fun y hy => by
      obtain ⟨i, -, rfl⟩ := List.mem_map.mp hy
      exact le_of_lt (m.weight_pos x i)) v hv

theorem predict_proba_ne_nil (m : XGBModel) (x : List ℚ) :
    m.predict_proba x ≠ [] := by
  apply List.ne_nil_of_length_pos
  unfold XGBModel.predict_proba
  simp only [List.length_map, List.length_finRange]
  exact m.num_class_pos

theorem foldl_max_eq_or_mem (xs : List ℚ) :
    ∀ x : ℚ, xs.foldl max x = x ∨ xs.foldl max x ∈ xs := by
  induction xs with
  | nil => intro x; exact Or.inl rfl
  | cons y ys ih =>
    intro x
    rw [List.foldl_cons]
    rcases ih (max x y) with h | h
    · rw [h]
      rcases max_choice x y with h2 | h2
      · exact Or.inl h2
      · exact Or.inr (by rw [h2]; exact List.mem_cons_self y ys)
    · exact Or.inr (List.mem_cons_of_mem y h)

theorem listMax_mem {l : List ℚ} (h : l ≠ []) : listMax l ∈ l := by
  cases l with
  | nil => exact absurd rfl h
  | cons x xs =>
    show xs.foldl max x ∈ x :: xs
    rcases foldl_max_eq_or_mem xs x with h1 | h1
    · rw [h1]; exact List.mem_cons_self x xs
    · exact List.mem_cons_of_mem x h1

theorem predict_failure_ok_elim {arts : Artifacts} {now : String} {r : RawRecord}
    {X : List (String × ℚ)} {res : PredResult}
    (hX : engineer_features arts.type_enc r = .ok X)
    (hres : predict_failure arts now r = .ok res) :
    ∃ cls, arts.target_enc.inverse_transform
        (arts.model.predict (X.map Prod.snd)) = .ok cls ∧
      res = { failureType := replaceUnderscores cls,
              confidence := listMax (arts.model.predict_proba (X.map Prod.snd)),
              timestamp := now } := by
  unfold predict_failure at hres
  rw [hX] at hres
  dsimp only at hres
  cases hinv : arts.target_enc.inverse_transform (arts.model.predict (X.map Prod.snd)) with
  | error e => rw [hinv] at hres; cases hres
  | ok cls =>
    rw [hinv] at hres
    exact ⟨cls, rfl, ((Except.ok.injEq _ _).mp hres).symm⟩

/-- C6: On every successful prediction the returned confidence is the
maximum of the per-class probability vector of the model for that input, lies in
`[0, 1]`, the vector sums to exactly 1, and the returned `failureType` is
the class at the arg-max index of that same vector (rendered with
underscores as spaces). -/
theorem C6_confidence_is_max_probability (arts : Artifacts) (now : String)
    (r : RawRecord) (X : List (String × ℚ)) (res : PredResult)
    (hX : engineer_features arts.type_enc r = .ok X)
    (hres : predict_failure arts now r = .ok res) :
    res.confidence = listMax (arts.model.predict_proba (X.map Prod.snd)) ∧
    0 ≤ res.confidence ∧ res.confidence ≤ 1 ∧
    (arts.model.predict_proba (X.map Prod.snd)).sum = 1 ∧
    ∃ cls, arts.target_enc.inverse_transform
        (argmaxIdx (arts.model.predict_proba (X.map Prod.snd))) = .ok cls ∧
      res.failureType = replaceUnderscores cls := by
  obtain ⟨cls, hinv, rfl⟩ := predict_failure_ok_elim hX hres
  have hmem : listMax (arts.model.predict_proba (X.map Prod.snd)) ∈
      arts.model.predict_proba (X.map Prod.snd) :=
    listMax_mem (predict_proba_ne_nil arts.model (X.map Prod.snd))
  have hb := predict_proba_bounds arts.model (X.map Prod.snd) _ hmem
  exact ⟨rfl, hb.1, hb.2, predict_proba_sum_one arts.model (X.map Prod.snd),
    ⟨cls, hinv, rfl⟩⟩

theorem example_weights :
    (List.finRange exampleModel.num_class).map
      (exampleModel.weight (exampleX.map Prod.snd)) = [1, 2] := by
  have h2 : List.finRange (2 : Nat) = [0, 1] := by decide
  show (List.finRange 2).map _ = _
  rw [h2]
  simp [exampleModel]
  norm_num

theorem example_proba :
    exampleModel.predict_proba (exampleX.map Prod.snd) = [1 / 3, 2 / 3] := by
  simp only [XGBModel.predict_proba, example_weights]
  norm_num

theorem example_listMax : listMax [(1 : ℚ) / 3, 2 / 3] = 2 / 3 := by
  show max ((1 : ℚ) / 3) (2 / 3) = 2 / 3
  exact max_eq_right (by norm_num)

theorem example_argmax :
    argmaxIdx (exampleModel.predict_proba (exampleX.map Prod.snd)) = 1 := by
  unfold argmaxIdx
  rw [example_proba, example_listMax]
  rw [List.indexOf_cons_ne _ (by norm_num : ((1 : ℚ) / 3) ≠ 2 / 3)]
  rw [List.indexOf_cons_self]

theorem predict_failure_example :
    predict_failure exampleArts "2024-01-01T00:00:00" exampleRecord =
      .ok exampleRes := by
  unfold predict_failure
  rw [show exampleArts.type_enc = exampleTypeEnc from rfl, engineer_features_example]
  dsimp only
  rw [show exampleArts.model = exampleModel from rfl,
      show exampleArts.target_enc = exampleTargetEnc from rfl]
  have hpred : exampleModel.predict (exampleX.map Prod.snd) = 1 := by
    unfold XGBModel.predict
    exact example_argmax
  rw [hpred, show exampleTargetEnc.inverse_transform 1 = .ok "Power_Failure" by decide]
  refine congrArg Except.ok ?_
  rw [example_proba, example_listMax]
  show ({ failureType := replaceUnderscores "Power_Failure", confidence := 2 / 3,
          timestamp := "2024-01-01T00:00:00" } : PredResult) = exampleRes
  rw [show replaceUnderscores "Power_Failure" = "Power Failure" by decide]
  rfl

/-- Witness for C6: on the example artifacts and record, the confidence is
the max probability `2/3`, within bounds, the vector sums to 1, and the
failure type is the arg-max class. -/
theorem C6_witness :
    exampleRes.confidence = listMax (exampleModel.predict_proba (exampleX.map Prod.snd)) ∧
    0 ≤ exampleRes.confidence ∧ exampleRes.confidence ≤ 1 ∧
    (exampleModel.predict_proba (exampleX.map Prod.snd)).sum = 1 ∧
    ∃ cls, exampleTargetEnc.inverse_transform
        (argmaxIdx (exampleModel.predict_proba (exampleX.map Prod.snd))) = .ok cls ∧
      exampleRes.failureType = replaceUnderscores cls :=
  C6_confidence_is_max_probability exampleArts "2024-01-01T00:00:00" exampleRecord
    exampleX exampleRes engineer_features_example predict_failure_example

/-- C9: The `classes` list persisted in `model_info.json` holds the
class names with underscores already replaced by spaces — for every decoded
class the metadata string equals the display `failureType` the Predictor
returns — while every raw class name the Label Encoder yields keeps its
underscores (and so differs from its display form). -/
theorem C9_metadata_classes_are_display_names :
    (∀ (enc : LabelEncoder) (i : Nat) (cls : String),
      enc.inverse_transform i = .ok cls →
      (model_info_classes enc).get? i = some (replaceUnderscores cls)) ∧
    (∀ (arts : Artifacts) (now : String) (r : RawRecord)
      (X : List (String × ℚ)) (res : PredResult),
      engineer_features arts.type_enc r = .ok X →
      predict_failure arts now r = .ok res →
      (model_info_classes arts.target_enc).get?
        (arts.model.predict (X.map Prod.snd)) = some res.failureType) ∧
    (∀ cls ∈ synthFailureClasses, replaceUnderscores cls ≠ cls) := by
  have h1 : ∀ (enc : LabelEncoder) (i : Nat) (cls : String),
      enc.inverse_transform i = .ok cls →
      (model_info_classes enc).get? i = some (replaceUnderscores cls) := by
    intro enc i cls h
    unfold LabelEncoder.inverse_transform at h
    cases hg : enc.classes.get? i with
    | none => rw [hg] at h; cases h
    | some c =>
      rw [hg] at h
      have hc : c = cls := (Except.ok.injEq _ _).mp h
      subst hc
      unfold model_info_classes
      rw [List.get?_map, hg]
      rfl
  refine ⟨h1, ?_, by decide⟩
  intro arts now r X res hX hres
  obtain ⟨cls, hinv, rfl⟩ := predict_failure_ok_elim hX hres
  exact h1 arts.target_enc _ cls hinv

/-- Witness for C9: the metadata entry at the predicted index of the
example model equals the display failure type `"Power Failure"`, and the raw class
`"No_Failure"` differs from its display form. -/
theorem C9_witness :
    (model_info_classes exampleTargetEnc).get?
      (exampleModel.predict (exampleX.map Prod.snd)) = some exampleRes.failureType ∧
    replaceUnderscores "No_Failure" ≠ "No_Failure" :=
  ⟨C9_metadata_classes_are_display_names.2.1 exampleArts "2024-01-01T00:00:00"
      exampleRecord exampleX exampleRes engineer_features_example
      predict_failure_example,
   C9_metadata_classes_are_display_names.2.2 "No_Failure" (by decide)⟩

theorem predict_failure_ok_timestamp {arts : Artifacts} {now : String}
    {r : RawRecord} {res : PredResult}
    (h : predict_failure arts now r = .ok res) : res.timestamp = now := by
  unfold predict_failure at h
  cases hX : engineer_features arts.type_enc r with
  | error e => rw [hX] at h; cases h
  | ok X =>
    rw [hX] at h
    dsimp only at h
    cases hinv : arts.target_enc.inverse_transform
        (arts.model.predict (X.map Prod.snd)) with
    | error e => rw [hinv] at h; cases h
    | ok cls =>
      rw [hinv] at h
      have hr := (Except.ok.injEq _ _).mp h
      subst hr
      rfl

/-- C2 (amended): For every invocation in which the module-level
artifact loading succeeds, the Predictor process writes exactly one line of
JSON to standard output — a `{failureType, confidence, timestamp}` object
with exit code 0 on success, or an `{error, timestamp}` object with exit
code 1 on failure — and never a raw stack trace. (When artifact loading
itself fails the process instead emits nothing on stdout and dies with a
traceback; see the counterexample.) -/
theorem C2_one_json_line_when_artifacts_load (arts : Artifacts) (now : String)
    (arg : ArgvInput) :
    (runProcess (some arts) now arg).rawTraceback = false ∧
    ((∃ f c, runProcess (some arts) now arg =
        { stdoutLines := [.success f c now], exitCode := 0, rawTraceback := false }) ∨
     (∃ m, runProcess (some arts) now arg =
        { stdoutLines := [.failure m now], exitCode := 1, rawTraceback := false })) := by
  cases arg with
  | missing => exact ⟨rfl, Or.inr ⟨"No input data provided", rfl⟩⟩
  | unparseable raw => exact ⟨rfl, Or.inr ⟨"Expecting value: invalid JSON", rfl⟩⟩
  | parsed obj =>
    cases hobj : extractRecord obj with
    | error e =>
      refine ⟨?_, Or.inr ⟨e.msg, ?_⟩⟩ <;> simp [runProcess, runMain, hobj]
    | ok r =>
      cases hpf : predict_failure arts now r with
      | error e =>
        refine ⟨?_, Or.inr ⟨e.msg, ?_⟩⟩ <;> simp [runProcess, runMain, hobj, hpf]
      | ok res =>
        have ht := predict_failure_ok_timestamp hpf
        refine ⟨?_, Or.inl ⟨res.failureType, res.confidence, ?_⟩⟩ <;>
          simp [runProcess, runMain, hobj, hpf, ht]

/-- Counterexample for C2 as stated: with the model file missing (artifact
loading fails), the process writes no JSON line at all to standard output
and dies with a raw traceback, contradicting "writes exactly one line of
JSON ... never a raw stack trace" for "any artifact state". -/
theorem C2_counterexample_missing_artifacts :
    ¬ ((runProcess none "2024-01-01T00:00:00" ArgvInput.missing).stdoutLines.length = 1 ∧
       (runProcess none "2024-01-01T00:00:00" ArgvInput.missing).rawTraceback = false) := by
  simp [runProcess]

theorem mem_eraseDups_loop (x : String) :
    ∀ (as bs : List String), x ∈ List.eraseDups.loop as bs ↔ x ∈ as ∨ x ∈ bs := by
  intro as
  induction as with
  | nil =>
    intro bs
    show x ∈ bs.reverse ↔ _
    simp
  | cons a as ih =>
    intro bs
    cases h : bs.elem a with
    | true =>
      have ha : a ∈ bs := by
        have := h
        simpa [List.elem_iff] using this
      show x ∈ (match bs.elem a with
        | true => List.eraseDups.loop as bs
        | false => List.eraseDups.loop as (a :: bs)) ↔ _
      rw [h]
      rw [ih bs]
      constructor
      · rintro (hc | hc)
        · exact Or.inl (List.mem_cons_of_mem a hc)
        · exact Or.inr hc
      · rintro (hc | hc)
        · rcases List.mem_cons.mp hc with hc | hc
          · exact Or.inr (by rw [hc]; exact ha)
          · exact Or.inl hc
        · exact Or.inr hc
    | false =>
      show x ∈ (match bs.elem a with
        | true => List.eraseDups.loop as bs
        | false => List.eraseDups.loop as (a :: bs)) ↔ _
      rw [h]
      rw [ih (a :: bs)]
      simp [List.mem_cons]
      tauto

theorem mem_uniqueClasses (df : List LabeledRecord) (ft : String) :
    ft ∈ uniqueClasses df ↔ ∃ r ∈ df, r.Failure_Type = ft := by
  unfold uniqueClasses List.eraseDups
  rw [mem_eraseDups_loop]
  simp [List.mem_map]

theorem countClass_append (a b : List LabeledRecord) (ft : String) :
    countClass (a ++ b) ft = countClass a ft + countClass b ft := by
  simp [countClass, List.filter_append]

theorem list_getD_mem {l : List LabeledRecord} {n : Nat} (h : n < l.length)
    (d : LabeledRecord) : l.getD n d ∈ l := by
  rw [List.getD_eq_getElem?_getD, List.getElem?_eq_getElem h]
  simp only [Option.getD_some]
  exact List.getElem_mem h

theorem balanceClass_eq_append (pick : Nat → Nat) (df : List LabeledRecord)
    (ft : String) :
    ∃ added, balanceClass pick df ft = df ++ added ∧
      (0 < countClass df ft → ∀ r ∈ added, r ∈ classRows df ft) := by
  simp only [balanceClass]
  by_cases h : (classRows df ft).length < min_samples_per_class
  · rw [if_pos h]
    refine ⟨_, rfl, ?_⟩
    intro hpos r hr
    obtain ⟨i, -, rfl⟩ := List.mem_map.mp hr
    exact list_getD_mem (Nat.mod_lt _ hpos) _
  · rw [if_neg h]
    exact ⟨[], (List.append_nil df).symm, fun _ r hr => absurd hr (List.not_mem_nil r)⟩

theorem balanceClass_count_le (pick : Nat → Nat) (df : List LabeledRecord)
    (ft ft2 : String) :
    countClass df ft2 ≤ countClass (balanceClass pick df ft) ft2 := by
  obtain ⟨added, happ, -⟩ := balanceClass_eq_append pick df ft
  rw [happ, countClass_append]
  exact Nat.le_add_right _ _

theorem balanceClass_count_ge (pick : Nat → Nat) (df : List LabeledRecord)
    (ft : String) (h : 0 < countClass df ft) :
    min_samples_per_class ≤ countClass (balanceClass pick df ft) ft := by
  simp only [balanceClass]
  by_cases hlt : (classRows df ft).length < min_samples_per_class
  · rw [if_pos hlt, countClass_append]
    have hadd : countClass
        ((List.range (min_samples_per_class - (classRows df ft).length)).map
          (fun i => (classRows df ft).getD (pick i % (classRows df ft).length) default))
        ft = min_samples_per_class - (classRows df ft).length := by
      unfold countClass
      rw [List.filter_eq_self.mpr ?cond]
      · rw [List.length_map, List.length_range]
      case cond =>
        intro r hr
        obtain ⟨i, -, rfl⟩ := List.mem_map.mp hr
        exact (List.mem_filter.mp (list_getD_mem (Nat.mod_lt _ h) default)).2
    rw [hadd]
    have hcc : countClass df ft = (classRows df ft).length := rfl
    omega
  · rw [if_neg hlt]
    exact le_of_not_lt hlt

theorem balanceLoop_count_le (pick : String → Nat → Nat) :
    ∀ (l : List String) (acc : List LabeledRecord) (ft : String),
      countClass acc ft ≤
        countClass (l.foldl (fun a c => balanceClass (pick c) a c) acc) ft := by
  intro l
  induction l with
  | nil => intro acc ft; exact le_refl _
  | cons c cs ih =>
    intro acc ft
    rw [List.foldl_cons]
    exact le_trans (balanceClass_count_le (pick c) acc c ft) (ih _ ft)

theorem balanceLoop_spec (pick : String → Nat → Nat) (df0 : List LabeledRecord) :
    ∀ (l : List String) (acc : List LabeledRecord),
      (∀ r ∈ acc, r ∈ df0) →
      (∀ ft ∈ l, 0 < countClass acc ft) →
      (∀ r ∈ l.foldl (fun a c => balanceClass (pick c) a c) acc, r ∈ df0) ∧
      (∀ ft ∈ l, min_samples_per_class ≤
        countClass (l.foldl (fun a c => balanceClass (pick c) a c) acc) ft) := by
  intro l
  induction l with
  | nil => intro acc hsub _; exact ⟨hsub, by simp⟩
  | cons c cs ih =>
    intro acc hsub hpos
    rw [List.foldl_cons]
    have hc : 0 < countClass acc c := hpos c (List.mem_cons_self c cs)
    obtain ⟨added, happ, hmem⟩ := balanceClass_eq_append (pick c) acc c
    have hsub2 : ∀ r ∈ balanceClass (pick c) acc c, r ∈ df0 := by
      rw [happ]
      intro r hr
      rcases List.mem_append.mp hr with hr | hr
      · exact hsub r hr
      · exact hsub r (List.mem_filter.mp (hmem hc r hr)).1
    have hpos2 : ∀ ft ∈ cs, 0 < countClass (balanceClass (pick c) acc c) ft :=
      fun ft hft => lt_of_lt_of_le (hpos ft (List.mem_cons_of_mem c hft))
        (balanceClass_count_le (pick c) acc c ft)
    obtain ⟨ih1, ih2⟩ := ih (balanceClass (pick c) acc c) hsub2 hpos2
    refine ⟨ih1, ?_⟩
    intro ft hft
    rcases List.mem_cons.mp hft with hft | hft
    · subst hft
      exact le_trans (balanceClass_count_ge (pick ft) acc ft hc)
        (balanceLoop_count_le pick cs (balanceClass (pick ft) acc ft) ft)
    · exact ih2 ft hft

theorem balanceLoop_append (pick : String → Nat → Nat) :
    ∀ (l : List String) (acc : List LabeledRecord),
      ∃ added, l.foldl (fun a c => balanceClass (pick c) a c) acc = acc ++ added := by
  intro l
  induction l with
  | nil => intro acc; exact ⟨[], (List.append_nil acc).symm⟩
  | cons c cs ih =>
    intro acc
    rw [List.foldl_cons]
    obtain ⟨a1, h1, -⟩ := balanceClass_eq_append (pick c) acc c
    obtain ⟨a2, h2⟩ := ih (balanceClass (pick c) acc c)
    exact ⟨a1 ++ a2, by rw [h2, h1, List.append_assoc]⟩

/-- C8: After the class-balancing loop, every failure class present in
the dataset has at least `min_samples_per_class` (50) rows, and the loop
only appends duplicates of rows already in the dataset — the original
rows stay in place, unchanged and unrelabeled. -/
theorem C8_balancing_reaches_minimum (pick : String → Nat → Nat)
    (df : List LabeledRecord) :
    (∃ added, balanceAll pick df = df ++ added) ∧
    (∀ r ∈ balanceAll pick df, r ∈ df) ∧
    (∀ ft, 0 < countClass (balanceAll pick df) ft →
      min_samples_per_class ≤ countClass (balanceAll pick df) ft) := by
  have hpos0 : ∀ ft ∈ uniqueClasses df, 0 < countClass df ft := by
    intro ft hft
    obtain ⟨r, hr, hfr⟩ := (mem_uniqueClasses df ft).mp hft
    exact List.length_pos_of_mem (List.mem_filter.mpr ⟨hr, by simp [hfr]⟩)
  obtain ⟨hsub, hge⟩ :=
    balanceLoop_spec pick df (uniqueClasses df) df (fun _ hr => hr) hpos0
  refine ⟨balanceLoop_append pick (uniqueClasses df) df, hsub, ?_⟩
  intro ft hft
  obtain ⟨r, hr⟩ := List.exists_mem_of_ne_nil _ (List.ne_nil_of_length_pos hft)
  have hr2 := List.mem_filter.mp hr
  have hin : ft ∈ uniqueClasses df :=
    (mem_uniqueClasses df ft).mpr ⟨r, hsub r hr2.1, by simpa using hr2.2⟩
  exact hge ft hin

/-- Witness for C8: on the 3-row example dataframe (two classes of sizes 2
and 1) the loop only appends rows, and both classes reach 50 rows. -/
theorem C8_witness :
    (∃ added, balanceAll pickZero exampleDf = exampleDf ++ added) ∧
    min_samples_per_class ≤ countClass (balanceAll pickZero exampleDf) "No_Failure" ∧
    min_samples_per_class ≤ countClass (balanceAll pickZero exampleDf) "Power_Failure" :=
  ⟨(C8_balancing_reaches_minimum pickZero exampleDf).1,
   (C8_balancing_reaches_minimum pickZero exampleDf).2.2 "No_Failure" (by decide),
   (C8_balancing_reaches_minimum pickZero exampleDf).2.2 "Power_Failure" (by decide)⟩

end PredMaint
